import Mathlib

/-!
Shallow embedding of the certificate-handling core of the ioBroker webserver
package (src/lib/certificateManager.ts and src/lib/webServer.ts), together
with theorems settling the behavioural claims about it.

JavaScript objects whose key order and key presence matter are modelled as
association lists `List (String × _)` (JS string-keyed objects preserve
insertion order and have unique keys).  The distinction between JavaScript
`undefined` and `null` is kept, because several code paths treat them
differently.  External collaborators (the ioBroker object store and the
node `tls` primitive) enter as explicit parameters.
-/

set_option maxHeartbeats 1000000

namespace Webserver

/-- JavaScript nullable values: a value of type `α`, or `null`, or `undefined`. -/
inductive JSNullable (α : Type) where
  | undef
  | null
  | val (a : α)
deriving DecidableEq, Repr

/-- Property read on a JS object (`o[k]`): value of the first entry whose key
is `k`, or `none` when the key is absent (JS yields `undefined`). -/
def objGet {α : Type} : List (String × α) → String → Option α
  | [], _ => none
  | (k2, v) :: rest, k => if k2 = k then some v else objGet rest k

/-- Property write on a JS object (`o[k] = v`): replaces the value of an
existing key in place, otherwise appends the key at the end (JS insertion
order semantics). -/
def objSet {α : Type} : List (String × α) → String → α → List (String × α)
  | [], k, v => [(k, v)]
  | (k2, v2) :: rest, k, v =>
    if k2 = k then (k, v) :: rest else (k2, v2) :: objSet rest k v

/-- The keys of a JS object, in order (`Object.keys`). -/
def objKeys {α : Type} (o : List (String × α)) : List String :=
  o.map Prod.fst

/-- JSON-ish field values occurring in persisted certificate collections. -/
inductive JSVal where
  | str (s : String)
  | num (n : Int)
  | strList (l : List String)
  | boolean (b : Bool)
deriving DecidableEq, Repr

/-- A certificate collection as the raw JS object the manager receives and
persists: an association list of field names to values (`Object.keys` on it
is what `setCollection` validates). -/
abbrev RawColl := List (String × JSVal)

/-- The `native` part of the persisted `system.certificates` object: its
`collections` field, which may be absent (`undefined`), `null`, or a JS
object mapping collection ids to collections. -/
structure SysObj where
  collections : JSNullable (List (String × RawColl))
deriving DecidableEq, Repr

/-- The state of the external object store at the `system.certificates` id:
the object itself may be absent. -/
structure StoreState where
  obj : JSNullable SysObj
deriving DecidableEq, Repr

def SYSTEM_CERTIFICATES_ID : String := "system.certificates"

/--
`CertificateManager.getAllCollections`, as a function of the outcome of the
underlying `getForeignObjectAsync` read (which may throw).  The result is
itself an `Except` to record that the JS function could in principle throw;
the `catch` branch of the source logs the error and returns `null`, and the
success branch returns `obj?.native.collections || null`, so in fact no
error ever escapes (claim C10).
-/
def getAllCollections (read : Except String (JSNullable SysObj)) :
    Except String (Option (List (String × RawColl))) :=
  match read with
  | Except.ok obj =>
    Except.ok
      (match obj with
       | JSNullable.val o =>
         match o.collections with
         | JSNullable.val c => some c
         | _ => none
       | _ => none)
  | Except.error _ => Except.ok none

/--
`CertificateManager.getCollection` on a store state whose reads succeed:
`getAllCollections` then `collections ? collections[collectionId] : null`.
Indexing a present `collections` object with an absent id yields JS
`undefined`, while an absent `collections` yields `null`.
-/
def getCollection (st : StoreState) (collectionId : String) : JSNullable RawColl :=
  match getAllCollections (Except.ok st.obj) with
  | Except.ok (some collections) =>
    match objGet collections collectionId with
    | some c => JSNullable.val c
    | none => JSNullable.undef
  | Except.ok none => JSNullable.null
  | Except.error _ => JSNullable.null

/-- The mandatory keys checked by `setCollection`. -/
def mandatoryKeys : List String := ["from", "tsExpires", "key", "cert", "domains"]

/-- `mandatory.every(key => Object.keys(collection).includes(key))`. -/
def hasMandatoryKeys (collection : RawColl) : Bool :=
  mandatoryKeys.all (fun k => (objKeys collection).contains k)

/-- jQuery-extend style merge of one collection object into an older one:
each field of the new object overwrites the field of the old one. -/
def extendCollection (old new : RawColl) : RawColl :=
  new.foldl (fun acc p => objSet acc p.1 p.2) old

/-- Merge `{[collectionId]: collection}` into an existing collections object
(the deep-merge performed by `extendForeignObjectAsync` at the collections
level): other ids are untouched, an existing id is merged field-wise, a new
id is appended. -/
def extendCollections (colls : List (String × RawColl)) (collectionId : String)
    (collection : RawColl) : List (String × RawColl) :=
  match objGet colls collectionId with
  | some old => objSet colls collectionId (extendCollection old collection)
  | none => objSet colls collectionId collection

/-- Effect of `extendForeignObjectAsync(SYSTEM_CERTIFICATES_ID,
{native: {collections: {[collectionId]: collection}}})` on the store: the
object and its `collections` field are created when missing. -/
def extendStore (st : StoreState) (collectionId : String) (collection : RawColl) :
    StoreState :=
  match st.obj with
  | JSNullable.val o =>
    match o.collections with
    | JSNullable.val colls =>
      ⟨JSNullable.val ⟨JSNullable.val (extendCollections colls collectionId collection)⟩⟩
    | _ => ⟨JSNullable.val ⟨JSNullable.val [(collectionId, collection)]⟩⟩
  | _ => ⟨JSNullable.val ⟨JSNullable.val [(collectionId, collection)]⟩⟩

/--
`CertificateManager.setCollection`: throws when a mandatory key is missing
(before any store write, so an error result leaves the persisted record
untouched), otherwise merges the collection into the persisted record.
-/
def setCollection (collectionId : String) (collection : RawColl) (st : StoreState) :
    Except String StoreState :=
  if hasMandatoryKeys collection then
    Except.ok (extendStore st collectionId collection)
  else
    Except.error
      ("At least one mandatory key (from,tsExpires,key,cert,domains) missing from collection")

/--
`CertificateManager.delCollection` on a store whose reads succeed: reads the
object; when it exists, its `collections` field is a (truthy) object and the
id is a key of it, deletes the key and writes the object back; otherwise the
goal is already reached and nothing happens.
-/
def delCollection (collectionId : String) (st : StoreState) : Except String StoreState :=
  match st.obj with
  | JSNullable.val o =>
    match o.collections with
    | JSNullable.val colls =>
      if (objKeys colls).contains collectionId then
        Except.ok ⟨JSNullable.val ⟨JSNullable.val (colls.filter (fun p => !(p.1 == collectionId)))⟩⟩
      else
        Except.ok st
    | _ => Except.ok st
  | _ => Except.ok st

/-- `CertificateManager.getCollectionIds` on a store whose reads succeed:
`collections ? Object.keys(collections) : []`. -/
def getCollectionIds (st : StoreState) : List String :=
  match st.obj with
  | JSNullable.val o =>
    match o.collections with
    | JSNullable.val colls => objKeys colls
    | _ => []
  | _ => []

/-- One invocation of a subscription callback: the `err` argument (`none`
for the JS `null`) and the collections mapping argument. -/
structure CbCall where
  err : Option String
  collections : List (String × RawColl)
deriving DecidableEq, Repr

/--
The `objectChange` handler registered by
`CertificateManager.subscribeCollections(collectionId, callback)`, applied
to one change event `(eventId, obj)`; `obj` here stands for the `native`
part of the delivered object (a missing object or missing `native` behaves
like a missing `collections` field).  The returned list holds the callback
invocations the handler performs for this event: the handler returns early,
invoking nothing, when `obj?.native?.collections` is missing.  Note the
single-entry mapping in the filtered branch is written in the source as
`{ collectionId: collections[collectionId] }`, whose key is the literal
string `"collectionId"`.
-/
def subscriptionHandler (collectionId : Option String) (eventId : String)
    (obj : JSNullable SysObj) : List CbCall :=
  if eventId = SYSTEM_CERTIFICATES_ID then
    match obj with
    | JSNullable.val o =>
      match o.collections with
      | JSNullable.val collections =>
        match collectionId with
        | none => [⟨none, collections⟩]
        | some cid =>
          match objGet collections cid with
          | some c => [⟨none, [("collectionId", c)]⟩]
          | none => [⟨some ("Subscribed collection ID " ++ cid ++ " not found"), []⟩]
      | _ => []
    | _ => []
  else []

/-! ### String helpers mirroring the JavaScript string operations used -/

/-- Is the first list an initial segment of the second (structural helper
for the suffix and substring checks below). -/
def listLeads : List Char → List Char → Bool
  | [], _ => true
  | _ :: _, [] => false
  | p :: ps, c :: cs => p = c && listLeads ps cs

/-- Does `pat` occur somewhere inside `l`. -/
def listOccurs (pat : List Char) : List Char → Bool
  | [] => listLeads pat []
  | c :: cs => listLeads pat (c :: cs) || listOccurs pat cs

/-- `String.prototype.endsWith`. -/
def jsEndsWith (s suffix : String) : Bool :=
  listLeads suffix.toList.reverse s.toList.reverse

/-- Whether `pat` occurs as a substring of `s` (used to express that an
error message mentions a collection id). -/
def strOccurs (s pat : String) : Bool :=
  listOccurs pat.toList s.toList

/-- Split a character list at every occurrence of `c` (helper for
`String.prototype.split`). -/
def splitCharList (c : Char) : List Char → List (List Char)
  | [] => [[]]
  | x :: xs =>
    match splitCharList c xs with
    | [] => [[x]]
    | h :: t => if x = c then [] :: h :: t else (x :: h) :: t

/-- `serverName.split(".")` of JavaScript. -/
def jsSplitDots (s : String) : List String :=
  (splitCharList '.' s.toList).map (fun l => String.mk l)

/-- `parts.join(sep)` of JavaScript. -/
def joinSep (sep : String) : List String → String
  | [] => ""
  | [s] => s
  | s :: rest => s ++ sep ++ joinSep sep rest

/-! ### WebServer layer -/

/-- A certificate collection as typed by the TS interface and read by
`WebServer` (`key`, `cert`, `domains`; `fromAdapter` models the `from`
field, a reserved word in Lean, and `chain` is optional, never read here). -/
structure CertificateCollection where
  fromAdapter : String
  tsExpires : Nat
  key : String
  cert : String
  domains : List String
  chain : Option String := none
deriving DecidableEq, Repr

/-- The fallback certificate material returned by
`adapter.getCertificatesAsync` (`{key, cert, ca?}` as PEM text). -/
structure Certificates where
  key : String
  cert : String
  ca : Option String := none
deriving DecidableEq, Repr

/-- A compiled TLS secure context.  `tls.createSecureContext` is external;
contexts are modelled as opaque tokens produced by the `compile` parameters
of the environment, so a context is identified by a string. -/
abbrev SecureContext := String

/-- One log line emitted through `adapter.log`. -/
inductive Log where
  | silly (m : String)
  | debug (m : String)
  | warn (m : String)
  | error (m : String)
deriving DecidableEq, Repr

/-- A thrown JavaScript error: a runtime `TypeError` (nullish property
access) or an `Error` (explicit `throw` / a throwing external call). -/
inductive JsError where
  | typeError (m : String)
  | jsError (m : String)
deriving DecidableEq, Repr

/-- The message of a thrown error. -/
def errMessage : JsError → String
  | JsError.typeError m => m
  | JsError.jsError m => m

/-- The runtime message for reading `key` of `undefined` (modelling the V8
TypeError text, without quotation of the property name). -/
def msgReadKeyOfUndefined : String := "Cannot read properties of undefined (reading key)"

/-- The runtime message for reading `key` of `null`. -/
def msgReadKeyOfNull : String := "Cannot read properties of null (reading key)"

/-- The value of the configuration key `leCollection`:
`string | boolean | undefined`. -/
inductive ConfigVal where
  | str (s : String)
  | boolean (b : Bool)
  | undef
deriving DecidableEq, Repr

/--
The external world as `WebServer.init` observes it: configuration, the
fallback-certificate answer of the adapter, the persisted collections (the
result the certificate manager would return at the typed layer), and the
behaviour of the external `tls.createSecureContext` on the three argument
shapes the source passes it.
-/
structure WEnv where
  secure : Bool
  leCollection : ConfigVal
  /-- `customCertificates[0]` from `adapter.getCertificatesAsync`, when truthy. -/
  rawCustomCerts : Option Certificates
  /-- what `certManager.getAllCollections()` yields: `null` or a mapping. -/
  store : Option (List (String × CertificateCollection))
  /-- `tls.createSecureContext({key, cert})` on collection material. -/
  compile : String → String → Except String SecureContext
  /-- `tls.createSecureContext(customCertificates)` when they exist. -/
  compileFull : Certificates → Except String SecureContext
  /-- `tls.createSecureContext(null)` when they do not. -/
  compileNull : Except String SecureContext

/--
`WebServer.getCustomCertificates`: rejects material whose `key`, `cert` or
(truthy) `ca` still looks like a `.pem` file path, logging an error and
returning `null`; otherwise returns the material.  The debug line logging
the loaded material is kept without its JSON payload.
-/
def getCustomCertificates (raw : Option Certificates) : Option Certificates × List Log :=
  match raw with
  | none => (none, [Log.debug "Loaded custom certificates"])
  | some certs =>
    if jsEndsWith certs.key ".pem" then
      (none, [Log.debug "Loaded custom certificates",
              Log.error ("Cannot load custom certificates. File \"" ++ certs.key ++
                "\" does not exists or iobroker user has no rights for it.")])
    else if jsEndsWith certs.cert ".pem" then
      (none, [Log.debug "Loaded custom certificates",
              Log.error ("Cannot load custom certificates. File \"" ++ certs.cert ++
                "\" does not exists or iobroker user has no rights for it.")])
    else
      match certs.ca with
      | some ca =>
        if !(ca == "") && jsEndsWith ca ".pem" then
          (none, [Log.debug "Loaded custom certificates",
                  Log.error ("Cannot load custom certificates. File \"" ++ ca ++
                    "\" does not exists or iobroker user has no rights for it.")])
        else (some certs, [Log.debug "Loaded custom certificates"])
      | none => (some certs, [Log.debug "Loaded custom certificates"])

/-- `certManager.getCollection(id)` at the typed layer (compare
`getCollection` above): `null` when no collections record exists, the JS
`undefined` when the record exists but lacks the id. -/
def getCollectionW (store : Option (List (String × CertificateCollection)))
    (collectionId : String) : JSNullable CertificateCollection :=
  match store with
  | some m =>
    match objGet m collectionId with
    | some c => JSNullable.val c
    | none => JSNullable.undef
  | none => JSNullable.null

/--
Worker of `WebServer.buildSecureContexts`, folding over
`Object.entries(collections)` with the contexts object built so far.  A
nullish entry (possible through the `as Record<...>` cast in `init`) throws
a `TypeError` at `collection.key`; a failing `tls.createSecureContext`
throws; there is no `try`/`catch`, so either error aborts the whole build.
-/
def buildSecureContextsAux (compile : String → String → Except String SecureContext) :
    List (String × JSNullable CertificateCollection) → List (String × SecureContext) →
    Except JsError (List (String × SecureContext))
  | [], contexts => Except.ok contexts
  | (_, v) :: rest, contexts =>
    match v with
    | JSNullable.undef => Except.error (JsError.typeError msgReadKeyOfUndefined)
    | JSNullable.null => Except.error (JsError.typeError msgReadKeyOfNull)
    | JSNullable.val c =>
      match compile c.key c.cert with
      | Except.error m => Except.error (JsError.jsError m)
      | Except.ok context =>
        buildSecureContextsAux compile rest
          (c.domains.foldl (fun acc domain => objSet acc domain context) contexts)

/-- `WebServer.buildSecureContexts(collections)`: one context per
collection, registered under each of its domains. -/
def buildSecureContexts (compile : String → String → Except String SecureContext)
    (collections : List (String × JSNullable CertificateCollection)) :
    Except JsError (List (String × SecureContext)) :=
  buildSecureContextsAux compile collections []

/-- Does an entry of the collections mapping fail TLS-context compilation
(nullish entries cannot even be read). -/
def collectionEntryFails (compile : String → String → Except String SecureContext)
    (p : String × JSNullable CertificateCollection) : Bool :=
  match p.2 with
  | JSNullable.val c =>
    match compile c.key c.cert with
    | Except.error _ => true
    | Except.ok _ => false
  | _ => true

/--
The match phase of the `SNICallback` installed by `WebServer.init`
(webServer.ts lines 231-253): exact table lookup first, then — when the
name has at least two labels — the one-level wildcard obtained by replacing
the left-most label with `*`.  `dbg` is `adapter.common.loglevel === "debug"`.
-/
def sniMatch (dbg : Bool) (contexts : List (String × SecureContext))
    (serverName : String) : Option SecureContext × List Log :=
  if (objGet contexts serverName).isSome then
    (objGet contexts serverName,
     if dbg then [Log.debug ("Using explicit context for \"" ++ serverName ++ "\"")] else [])
  else
    let serverParts := jsSplitDots serverName
    if serverParts.length > 1 then
      let wildcard := joinSep "." ("*" :: serverParts.tail)
      if (objGet contexts wildcard).isSome then
        (objGet contexts wildcard,
         if dbg then [Log.debug ("Using wildcard context for \"" ++ serverName ++ "\"")] else [])
      else (none, [])
    else (none, [])

/-- The one-level wildcard of a hostname: its left-most label replaced by `*`. -/
def wildcardOf (serverName : String) : String :=
  joinSep "." ("*" :: (jsSplitDots serverName).tail)

/--
The full body of the `SNICallback` (webServer.ts lines 228-277) for one
handshake, as a function of the captured snapshots: the current contexts
table (`undefined` only if no collections path was taken), the custom
fallback context, and the requested name.  Returns the context passed to
`callback(null, context)` (`none` means no certificate — handshake failure)
and the log lines emitted.
-/
def sniResolve (dbg : Bool) (contexts : Option (List (String × SecureContext)))
    (customCtx : Option SecureContext) (serverName : String) :
    Option SecureContext × List Log :=
  let m :=
    match contexts with
    | some tbl => sniMatch dbg tbl serverName
    | none => (none, [])
  match m.1 with
  | some c => (some c, m.2)
  | none =>
    match customCtx with
    | some c => (some c, m.2)
    | none =>
      match contexts with
      | some tbl =>
        match tbl with
        | [] =>
          (none, m.2 ++ [Log.error ("Could not derive secure context for \"" ++
            serverName ++ "\"")])
        | e :: _ =>
          (some e.2, m.2 ++ [Log.warn ("No matching context for \"" ++ serverName ++
            "\" - using first certificate collection which will likely cause browser security warnings")])
      | none =>
        (none, m.2 ++ [Log.error ("Could not find any certificates for \"" ++
          serverName ++ "\"")])

/-- The kind of server `init` resolves to, with the material it captures. -/
inductive ServerKind where
  /-- `http.createServer(app)` -/
  | httpServer
  /-- `https.createServer(customCertificates, app)` -/
  | httpsFallbackServer (certs : Certificates)
  /-- `https.createServer({SNICallback}, app)` with the initial contexts
  table, the compiled custom fallback context, and the filter id passed to
  `subscribeCollections`. -/
  | httpsCollectionsServer (contexts : List (String × SecureContext))
      (customCtx : SecureContext) (subFilter : Option String)
deriving DecidableEq, Repr

/-- The successful outcome of `init`: the server built and the log lines
emitted on the way. -/
structure InitResult where
  server : ServerKind
  logs : List Log
deriving DecidableEq, Repr

/-- The degrade path shared by the empty-store and the `false`-selector
branches of `init`, after its branch-specific logs: HTTPS from the custom
certificates when they exist, else plain HTTP with an error log. -/
def initDegrade (customCertificates : Option Certificates) (logs : List Log)
    (fallbackLog : Log) : Except JsError InitResult :=
  match customCertificates with
  | some c => Except.ok ⟨ServerKind.httpsFallbackServer c, logs ++ [fallbackLog]⟩
  | none =>
    Except.ok ⟨ServerKind.httpServer,
      logs ++ [Log.error "Could not find self-signed certificate - falling back to insecure http createServer"]⟩

/--
The tail of `init` once a collections object exists (webServer.ts lines
191-283): compile the custom certificates into the fallback context (a
throw propagates), build the secure contexts (a throw propagates),
subscribe with the computed filter, and create the HTTPS server whose
`SNICallback` closes over the table and fallback context.
-/
def initWithCollections (env : WEnv) (customCertificates : Option Certificates)
    (collections : List (String × JSNullable CertificateCollection))
    (subFilter : Option String) (logs : List Log) : Except JsError InitResult :=
  match (match customCertificates with
         | some c => env.compileFull c
         | none => env.compileNull) with
  | Except.error m => Except.error (JsError.jsError m)
  | Except.ok customCtx =>
    match buildSecureContexts env.compile collections with
    | Except.error e => Except.error e
    | Except.ok contexts =>
      Except.ok ⟨ServerKind.httpsCollectionsServer contexts customCtx subFilter,
        logs ++ [Log.debug "Using https createServer"]⟩

/-- The `collectionId !== false` branch of `init` fetching all collections:
degrade when none are found, else proceed with every collection (and a
`null` subscription filter). -/
def initAllPath (env : WEnv) (customCertificates : Option Certificates)
    (logs : List Log) : Except JsError InitResult :=
  let warned := logs ++
    [Log.warn "Could not find any certificate collections - check ACME installation or consider installing"]
  match env.store with
  | none =>
    initDegrade customCertificates warned
      (Log.warn "Falling back to self-signed certificates or to custom certificates")
  | some colls =>
    if colls.length = 0 then
      initDegrade customCertificates warned
        (Log.warn "Falling back to self-signed certificates or to custom certificates")
    else
      initWithCollections env customCertificates
        (colls.map (fun p => (p.1, JSNullable.val p.2))) none logs

/--
`WebServer.init`.  With `secure` unset the server is plain HTTP.  Otherwise
the custom certificates are loaded, and the `leCollection` configuration
selects: a non-empty string fetches exactly that collection (building the
one-entry object `{[collectionId]: await getCollection(collectionId)}`,
whose value is nullish when the id is absent); `false` uses only the custom
certificates; anything else (`true`, `undefined`, the falsy `""`) fetches
all collections.
-/
def init (env : WEnv) : Except JsError InitResult :=
  if env.secure = false then
    Except.ok ⟨ServerKind.httpServer,
      [Log.debug "Secure connection not enabled - using http createServer"]⟩
  else
    let cc := getCustomCertificates env.rawCustomCerts
    let logs := cc.2 ++ [Log.debug "Loading all certificate collections..."]
    match env.leCollection with
    | ConfigVal.str s =>
      if s = "" then
        initAllPath env cc.1 logs
      else
        initWithCollections env cc.1 [(s, getCollectionW env.store s)] (some s) logs
    | ConfigVal.boolean true => initAllPath env cc.1 logs
    | ConfigVal.undef => initAllPath env cc.1 logs
    | ConfigVal.boolean false =>
      initDegrade cc.1 logs (Log.debug "Use self-signed certificates or custom certificates")

/-- The collections object currently persisted in a store state (`[]` when
the record or the field is absent): the view the round-trip theorems read. -/
def collsOf (st : StoreState) : List (String × RawColl) :=
  match st.obj with
  | JSNullable.val o =>
    match o.collections with
    | JSNullable.val c => c
    | _ => []
  | _ => []

/-! ### Concrete instances used by the theorems -/

/-- A raw collection carrying every mandatory field. -/
def rawCollValid : RawColl :=
  [("from", JSVal.str "acme"), ("tsExpires", JSVal.num 123), ("key", JSVal.str "K"),
   ("cert", JSVal.str "C"), ("domains", JSVal.strList ["a.com"])]

/-- The same collection with the `from` field dropped. -/
def rawCollMissing : RawColl := rawCollValid.tail

/-- An empty store: no `system.certificates` object at all. -/
def st0 : StoreState := ⟨JSNullable.null⟩

/-- A typed collection whose key material fails TLS compilation under
`compileX`. -/
def collA : CertificateCollection :=
  { fromAdapter := "acme", tsExpires := 1, key := "badkey", cert := "certA",
    domains := ["a.example.org"] }

/-- A typed collection whose key material compiles under `compileX`. -/
def collB : CertificateCollection :=
  { fromAdapter := "acme", tsExpires := 2, key := "goodkey", cert := "certB",
    domains := ["b.example.org"] }

/-- A concrete `tls.createSecureContext` behaviour: rejects `badkey`,
compiles everything else to a token naming the material. -/
def compileX : String → String → Except String SecureContext :=
  fun k c => if k = "badkey" then Except.error "wrong key" else Except.ok (k ++ "|" ++ c)

/-- A mapping holding one failing and one succeeding collection. -/
def collsAB : List (String × JSNullable CertificateCollection) :=
  [("collA", JSNullable.val collA), ("collB", JSNullable.val collB)]

/-- The one collection the store of `env1` holds. -/
def collOther : CertificateCollection :=
  { fromAdapter := "acme", tsExpires := 1, key := "k", cert := "c", domains := ["o.com"] }

/-- The fallback certificate material used by the concrete environments. -/
def certsKC : Certificates := { key := "KEY", cert := "CERT" }

/-- A bootstrap environment requesting the specific collection
`"specific-id"`, which the store does not hold (it holds `"other"`), with a
usable fallback certificate. -/
def env1 : WEnv :=
  { secure := true
    leCollection := ConfigVal.str "specific-id"
    rawCustomCerts := some certsKC
    store := some [("other", collOther)]
    compile := fun k c => Except.ok (k ++ "|" ++ c)
    compileFull := fun _ => Except.ok "CUSTOMCTX"
    compileNull := Except.ok "NULLCTX" }

/-- A secure bootstrap with `leCollection = true`, an empty store record
(`getAllCollections` yields `null`) and a usable fallback certificate. -/
def env2 : WEnv :=
  { secure := true
    leCollection := ConfigVal.boolean true
    rawCustomCerts := some certsKC
    store := none
    compile := fun k c => Except.ok (k ++ "|" ++ c)
    compileFull := fun _ => Except.ok "CUSTOMCTX"
    compileNull := Except.ok "NULLCTX" }

/-- A secure bootstrap with `leCollection` unset, an empty collections
mapping and no fallback certificate at all. -/
def env3 : WEnv :=
  { secure := true
    leCollection := ConfigVal.undef
    rawCustomCerts := none
    store := some []
    compile := fun k c => Except.ok (k ++ "|" ++ c)
    compileFull := fun _ => Except.ok "CUSTOMCTX"
    compileNull := Except.ok "NULLCTX" }

/-! ## Helper lemmas about the JS object model -/

theorem objGet_objSet_self {α : Type} (o : List (String × α)) (k : String) (v : α) :
    objGet (objSet o k v) k = some v := by
  induction o with
  | nil => simp [objSet, objGet]
  | cons p rest ih =>
    rcases p with ⟨k2, v2⟩
    by_cases h : k2 = k
    · simp [objSet, objGet, h]
    · simp [objSet, objGet, h, ih]

theorem objGet_objSet_ne {α : Type} (o : List (String × α)) (k k2 : String) (v : α)
    (h : k2 ≠ k) : objGet (objSet o k v) k2 = objGet o k2 := by
  induction o with
  | nil => simp [objSet, objGet, Ne.symm h]
  | cons p rest ih =>
    rcases p with ⟨k3, v3⟩
    by_cases h3 : k3 = k
    · simp [objSet, objGet, h3, Ne.symm h]
    · simp only [objSet, if_neg h3]
      by_cases h32 : k3 = k2
      · simp [objGet, h32]
      · simp [objGet, h32, ih]

theorem contains_objKeys {α : Type} (o : List (String × α)) (k : String) :
    (objKeys o).contains k = (objGet o k).isSome := by
  induction o with
  | nil => simp [objKeys, objGet]
  | cons p rest ih =>
    rcases p with ⟨k2, v2⟩
    by_cases h : k2 = k
    · simp [objKeys, objGet, h]
    · have hb : (k == k2) = false := by
        simp [Ne.symm h]
      simpa [objKeys, objGet, h, hb] using ih

theorem objGet_filterNe_self {α : Type} (o : List (String × α)) (k : String) :
    objGet (o.filter (fun p => !(p.1 == k))) k = none := by
  induction o with
  | nil => simp [objGet]
  | cons p rest ih =>
    rcases p with ⟨k2, v2⟩
    by_cases h : k2 = k
    · simpa [List.filter_cons, h] using ih
    · simpa [List.filter_cons, h, objGet] using ih

theorem contains_objKeys_filterNe {α : Type} (o : List (String × α)) (k : String) :
    (objKeys (o.filter (fun p => !(p.1 == k)))).contains k = false := by
  rw [contains_objKeys, objGet_filterNe_self]
  rfl

theorem objGet_extendCollections_self (colls : List (String × RawColl))
    (collectionId : String) (collection : RawColl) :
    (objGet (extendCollections colls collectionId collection) collectionId).isSome = true := by
  unfold extendCollections
  cases hg : objGet colls collectionId <;> simp [objGet_objSet_self]

theorem objGet_extendCollections_ne (colls : List (String × RawColl))
    (collectionId id2 : String) (collection : RawColl) (h : id2 ≠ collectionId) :
    objGet (extendCollections colls collectionId collection) id2 = objGet colls id2 := by
  unfold extendCollections
  cases hg : objGet colls collectionId <;> rw [objGet_objSet_ne _ _ _ _ h]

theorem extendStore_shape (st : StoreState) (collectionId : String) (collection : RawColl) :
    ∃ L, extendStore st collectionId collection = ⟨JSNullable.val ⟨JSNullable.val L⟩⟩ ∧
      (objGet L collectionId).isSome = true ∧
      ∀ id2, id2 ≠ collectionId → objGet L id2 = objGet (collsOf st) id2 := by
  rcases st with ⟨obj⟩
  cases obj with
  | undef =>
    refine ⟨[(collectionId, collection)], rfl, by simp [objGet], ?_⟩
    intro id2 h
    simp [objGet, collsOf, Ne.symm h]
  | null =>
    refine ⟨[(collectionId, collection)], rfl, by simp [objGet], ?_⟩
    intro id2 h
    simp [objGet, collsOf, Ne.symm h]
  | val o =>
    rcases o with ⟨colls⟩
    cases colls with
    | undef =>
      refine ⟨[(collectionId, collection)], rfl, by simp [objGet], ?_⟩
      intro id2 h
      simp [objGet, collsOf, Ne.symm h]
    | null =>
      refine ⟨[(collectionId, collection)], rfl, by simp [objGet], ?_⟩
      intro id2 h
      simp [objGet, collsOf, Ne.symm h]
    | val c =>
      refine ⟨extendCollections c collectionId collection, rfl,
        objGet_extendCollections_self c collectionId collection, ?_⟩
      intro id2 h
      simpa [collsOf] using objGet_extendCollections_ne c collectionId id2 collection h

theorem sniMatch_nil (dbg : Bool) (serverName : String) :
    sniMatch dbg [] serverName = (none, []) := by
  simp [sniMatch, objGet]

theorem buildSecureContextsAux_error
    (compile : String → String → Except String SecureContext) :
    ∀ (colls : List (String × JSNullable CertificateCollection))
      (acc : List (String × SecureContext)),
      (∃ p, p ∈ colls ∧ collectionEntryFails compile p = true) →
      ∃ e, buildSecureContextsAux compile colls acc = Except.error e := by
  intro colls
  induction colls with
  | nil =>
    rintro acc ⟨p, hp, -⟩
    exact absurd hp (List.not_mem_nil p)
  | cons q rest ih =>
    rintro acc ⟨p, hp, hf⟩
    rcases q with ⟨qid, qv⟩
    cases qv with
    | undef => exact ⟨_, rfl⟩
    | null => exact ⟨_, rfl⟩
    | val c =>
      cases hc : compile c.key c.cert with
      | error m =>
        refine ⟨JsError.jsError m, ?_⟩
        simp [buildSecureContextsAux, hc]
      | ok ctx =>
        rcases List.mem_cons.mp hp with hq | hrest
        · rw [hq] at hf
          simp [collectionEntryFails, hc] at hf
        · have := ih (c.domains.foldl (fun acc domain => objSet acc domain ctx) acc)
            ⟨p, hrest, hf⟩
          simpa [buildSecureContextsAux, hc] using this

/-! ## Claim theorems -/

/-- C2 (counterexample): with a mapping holding one collection whose key
material fails TLS compilation (`collA`) and one that compiles fine
(`collB`), `buildSecureContexts` does not skip the failing collection and
return the table of the others — it aborts with the propagated compilation
error, although `collB` alone would have produced a one-entry table. -/
theorem c2_counterexample :
    buildSecureContexts compileX collsAB = Except.error (JsError.jsError "wrong key")
    ∧ buildSecureContexts compileX [("collB", JSNullable.val collB)] =
        Except.ok [("b.example.org", "goodkey|certB")] := by
  constructor <;> rfl

/-- C2 (amended): whenever any collection of the mapping fails TLS context
compilation (or is nullish), `buildSecureContexts` throws — the exception
propagates and no table at all is returned, not even for the collections
that would have compiled. -/
theorem c2_buildSecureContexts_aborts
    (compile : String → String → Except String SecureContext)
    (collections : List (String × JSNullable CertificateCollection))
    (h : ∃ p, p ∈ collections ∧ collectionEntryFails compile p = true) :
    ∃ e, buildSecureContexts compile collections = Except.error e :=
  buildSecureContextsAux_error compile collections [] h

/-- C2 (witness): the amended theorem applied to the concrete failing
mapping `collsAB`. -/
theorem c2_witness :
    ∃ e, buildSecureContexts compileX collsAB = Except.error e :=
  c2_buildSecureContexts_aborts compileX collsAB
    ⟨("collA", JSNullable.val collA), by decide, by decide⟩

/-- C3: a change to `system.certificates` that removes the `collections`
field (or the whole object) is silently dropped by the handler registered
in `subscribeCollections` — no callback is invoked, for an unfiltered as
well as for a filtered subscription, contradicting the documented
"calls callback on every change". -/
theorem c3_collections_removal_dropped :
    subscriptionHandler none SYSTEM_CERTIFICATES_ID (JSNullable.val ⟨JSNullable.undef⟩) = []
    ∧ subscriptionHandler none SYSTEM_CERTIFICATES_ID JSNullable.null = []
    ∧ subscriptionHandler (some "acme-1") SYSTEM_CERTIFICATES_ID
        (JSNullable.val ⟨JSNullable.null⟩) = [] := by
  refine ⟨rfl, rfl, rfl⟩

/-- C7: for a subscription filtered on `"acme-1"` and a change whose
collections contain `"acme-1"`, the callback is invoked with `err = null`
and a single-entry mapping — but its key is the literal string
`"collectionId"` (the source writes `{ collectionId: ... }` without
computed-key brackets), not `"acme-1"`; the absent-id case does signal
through the error channel as claimed. -/
theorem c7_filtered_callback_literal_key :
    subscriptionHandler (some "acme-1") SYSTEM_CERTIFICATES_ID
        (JSNullable.val ⟨JSNullable.val [("acme-1", rawCollValid)]⟩)
      = [⟨none, [("collectionId", rawCollValid)]⟩]
    ∧ ("collectionId" : String) ≠ "acme-1"
    ∧ subscriptionHandler (some "acme-1") SYSTEM_CERTIFICATES_ID
        (JSNullable.val ⟨JSNullable.val [("other", rawCollValid)]⟩)
      = [⟨some "Subscribed collection ID acme-1 not found", []⟩] := by
  refine ⟨rfl, by decide, rfl⟩

/-- C10: `getAllCollections` never lets an error escape: a throwing store
read is caught and converted to the same `null` result that an absent
record or absent `collections` field produces, so every outcome of the read
yields a non-throwing answer that is either the mapping or `null`. -/
theorem c10_getAllCollections_never_throws :
    (∀ e : String, getAllCollections (Except.error e) = Except.ok none)
    ∧ getAllCollections (Except.ok JSNullable.null) = Except.ok none
    ∧ getAllCollections (Except.ok JSNullable.undef) = Except.ok none
    ∧ ∀ read : Except String (JSNullable SysObj), ∃ v, getAllCollections read = Except.ok v := by
  refine ⟨fun e => rfl, rfl, rfl, fun read => ?_⟩
  cases read with
  | ok obj => exact ⟨_, rfl⟩
  | error e => exact ⟨none, rfl⟩

/-- C4: for every table snapshot and requested SNI name, an exact key wins;
otherwise the match phase consults exactly the one-level wildcard (the
left-most label replaced by `*`) and nothing else — when the name has fewer
than two labels nothing is consulted at all.  Concretely,
`sub.example.com` resolves to a registered `*.example.com`, while
`a.b.example.com` does not match `*.example.com` and falls through to the
fallback context. -/
theorem c4_sni_wildcard_resolution :
    (∀ (dbg : Bool) (tbl : List (String × SecureContext)) (h : String) (c : SecureContext),
       objGet tbl h = some c → (sniMatch dbg tbl h).1 = some c)
    ∧ (∀ (dbg : Bool) (tbl : List (String × SecureContext)) (h : String),
       objGet tbl h = none →
       (sniMatch dbg tbl h).1 =
         (if (jsSplitDots h).length > 1 then objGet tbl (wildcardOf h) else none))
    ∧ (sniResolve false (some [("*.example.com", "WC")]) none "sub.example.com").1 = some "WC"
    ∧ (sniResolve false (some [("*.example.com", "WC")]) (some "FB") "a.b.example.com").1
        = some "FB" := by
  refine ⟨?_, ?_, by decide, by decide⟩
  · intro dbg tbl h c hget
    simp [sniMatch, hget]
  · intro dbg tbl h hget
    by_cases hlen : (jsSplitDots h).length > 1
    · cases hw : objGet tbl (wildcardOf h) with
      | some c =>
        simp [sniMatch, hget, hlen, wildcardOf] at hw ⊢
        simp [hw]
      | none =>
        simp [sniMatch, hget, hlen, wildcardOf] at hw ⊢
        simp [hw]
    · simp [sniMatch, hget, hlen]

/-- C4 (witness): the exact-match and the wildcard-only parts of the
theorem, applied at concrete tables and hostnames. -/
theorem c4_witness :
    (sniMatch false [("host1", "X")] "host1").1 = some "X"
    ∧ (sniMatch false [("k", "Y")] "a.b").1 =
        (if (jsSplitDots "a.b").length > 1 then objGet [("k", "Y")] (wildcardOf "a.b")
         else none) :=
  ⟨c4_sni_wildcard_resolution.1 false [("host1", "X")] "host1" "X" (by decide),
   c4_sni_wildcard_resolution.2.1 false [("k", "Y")] "a.b" (by decide)⟩

/-- C5: when neither an exact nor a one-level-wildcard match exists, the
callback returns the fallback context when one exists; otherwise, for a
non-empty table, it returns the first-enumerated entry and logs a warning;
for an empty table without fallback it returns no certificate (the
handshake fails) and logs an error — and with an empty table and a
fallback, every hostname resolves to the fallback. -/
theorem c5_sni_fallback_chain :
    (∀ (dbg : Bool) (tbl : List (String × SecureContext)) (f : SecureContext) (h : String),
       (sniMatch dbg tbl h).1 = none →
       (sniResolve dbg (some tbl) (some f) h).1 = some f)
    ∧ (∀ (dbg : Bool) (e : String × SecureContext) (rest : List (String × SecureContext))
         (h : String),
       (sniMatch dbg (e :: rest) h).1 = none →
       (sniResolve dbg (some (e :: rest)) none h).1 = some e.2 ∧
       Log.warn ("No matching context for \"" ++ h ++
           "\" - using first certificate collection which will likely cause browser security warnings")
         ∈ (sniResolve dbg (some (e :: rest)) none h).2)
    ∧ (∀ (dbg : Bool) (h : String),
       (sniResolve dbg (some []) none h).1 = none ∧
       Log.error ("Could not derive secure context for \"" ++ h ++ "\"")
         ∈ (sniResolve dbg (some []) none h).2)
    ∧ (∀ (dbg : Bool) (f : SecureContext) (h : String),
       (sniResolve dbg (some []) (some f) h).1 = some f) := by
  refine ⟨?_, ?_, ?_, ?_⟩
  · intro dbg tbl f h hm
    simp [sniResolve, hm]
  · intro dbg e rest h hm
    simp [sniResolve, hm]
  · intro dbg h
    simp [sniResolve, sniMatch_nil]
  · intro dbg f h
    simp [sniResolve, sniMatch_nil]

/-- C5 (witness): the fallback branch and the first-entry branch of the
theorem, applied at a concrete table and hostname with no match. -/
theorem c5_witness :
    (sniResolve false (some [("a.com", "A")]) (some "F") "zzz").1 = some "F"
    ∧ (sniResolve false (some [("a.com", "A")]) none "zzz").1 = some "A" :=
  ⟨c5_sni_fallback_chain.1 false [("a.com", "A")] "F" "zzz" (by decide),
   (c5_sni_fallback_chain.2.1 false ("a.com", "A") [] "zzz" (by decide)).1⟩

/-- C8: `setCollection` rejects (with the validation error, before any
store write) every collection missing one of the mandatory keys
`{from, tsExpires, key, cert, domains}`; with all of them present it
merges the collection into the persisted record under the given id,
leaving every other collection id bound exactly as before. -/
theorem c8_setCollection_validation (collectionId : String) (collection : RawColl)
    (st : StoreState) :
    (hasMandatoryKeys collection = false →
      setCollection collectionId collection st =
        Except.error "At least one mandatory key (from,tsExpires,key,cert,domains) missing from collection")
    ∧ (hasMandatoryKeys collection = true →
      ∃ st2, setCollection collectionId collection st = Except.ok st2 ∧
        (objGet (collsOf st2) collectionId).isSome = true ∧
        ∀ id2, id2 ≠ collectionId → objGet (collsOf st2) id2 = objGet (collsOf st) id2) := by
  constructor
  · intro h
    simp [setCollection, h]
  · intro h
    obtain ⟨L, hL, hsome, hne⟩ := extendStore_shape st collectionId collection
    refine ⟨extendStore st collectionId collection, by simp [setCollection, h], ?_, ?_⟩
    · rw [hL]
      simpa [collsOf] using hsome
    · intro id2 h2
      rw [hL]
      simpa [collsOf] using hne id2 h2

/-- C8 (witness): the theorem applied to a collection missing `from` and to
a complete collection, over the empty store. -/
theorem c8_witness :
    setCollection "acme-1" rawCollMissing st0 =
      Except.error "At least one mandatory key (from,tsExpires,key,cert,domains) missing from collection"
    ∧ ∃ st2, setCollection "acme-1" rawCollValid st0 = Except.ok st2 ∧
        (objGet (collsOf st2) "acme-1").isSome = true ∧
        ∀ id2, id2 ≠ "acme-1" → objGet (collsOf st2) id2 = objGet (collsOf st0) id2 :=
  ⟨(c8_setCollection_validation "acme-1" rawCollMissing st0).1 (by decide),
   (c8_setCollection_validation "acme-1" rawCollValid st0).2 (by decide)⟩

/-- C9 (counterexample): starting from the empty store, `set("acme-1", X)`
followed by `delete("acme-1")` leaves a state whose id list excludes
`"acme-1"` — but `getCollection("acme-1")` returns the JS `undefined`
(the persisted `collections` object still exists and indexing it with an
absent id yields `undefined`), not `null` as claimed. -/
theorem c9_counterexample :
    (setCollection "acme-1" rawCollValid st0 >>= fun s1 =>
     delCollection "acme-1" s1 >>= fun s2 =>
     Except.ok (getCollectionIds s2, getCollection s2 "acme-1"))
      = Except.ok ([], JSNullable.undef)
    ∧ JSNullable.undef ≠ (JSNullable.null : JSNullable RawColl) :=
  ⟨rfl, by decide⟩

/-- C9 (amended): for every starting store state, id and valid collection,
`set(id, X)` then `delete(id)` yields a state in which `getCollectionIds()`
does not include the id and `getCollection(id)` returns the nullish JS
`undefined` (rather than `null`). -/
theorem c9_set_then_delete (st : StoreState) (collectionId : String) (X : RawColl)
    (hX : hasMandatoryKeys X = true) (st1 st2 : StoreState)
    (hset : setCollection collectionId X st = Except.ok st1)
    (hdel : delCollection collectionId st1 = Except.ok st2) :
    (getCollectionIds st2).contains collectionId = false ∧
    getCollection st2 collectionId = JSNullable.undef := by
  simp only [setCollection, hX, if_pos, Except.ok.injEq] at hset
  obtain ⟨L, hL, hsome, -⟩ := extendStore_shape st collectionId X
  rw [← hset, hL] at hdel
  have hcont : (objKeys L).contains collectionId = true := by
    rw [contains_objKeys]
    exact hsome
  simp only [delCollection, hcont, if_pos, Except.ok.injEq] at hdel
  rw [← hdel]
  constructor
  · simpa [getCollectionIds] using contains_objKeys_filterNe L collectionId
  · simp [getCollection, getAllCollections, objGet_filterNe_self]

/-- C9 (witness): the amended theorem applied to the concrete round trip of
the counterexample. -/
theorem c9_witness :
    (getCollectionIds ⟨JSNullable.val ⟨JSNullable.val []⟩⟩).contains "acme-1" = false
    ∧ getCollection ⟨JSNullable.val ⟨JSNullable.val []⟩⟩ "acme-1" = JSNullable.undef :=
  c9_set_then_delete st0 "acme-1" rawCollValid (by decide)
    ⟨JSNullable.val ⟨JSNullable.val [("acme-1", rawCollValid)]⟩⟩
    ⟨JSNullable.val ⟨JSNullable.val []⟩⟩ rfl rfl

/-- C1 (counterexample): in the concrete bootstrap `env1` (secure, selector
`"specific-id"`, store holding only `"other"`, usable fallback), `init`
does fail — but with the runtime `TypeError` raised when reading `key` of
the `undefined` collection entry, an error that does not mention
`"specific-id"` at all, rather than a `NotFoundError` naming it. -/
theorem c1_counterexample :
    init env1 = Except.error (JsError.typeError msgReadKeyOfUndefined)
    ∧ strOccurs (errMessage (JsError.typeError msgReadKeyOfUndefined)) "specific-id" = false :=
  ⟨rfl, by decide⟩

/-- C1 (amended): for every secure bootstrap whose selector is a specific
collection id absent from the persisted store and whose fallback
certificates compile, `init` fails — it never returns a server — but what
propagates is a `TypeError` from reading `key` of the nullish entry
(`null`-flavoured when no collections record exists, `undefined`-flavoured
when the record lacks the id), not a `NotFoundError` naming the id. -/
theorem c1_missing_collection_throws_typeerror (env : WEnv) (collectionId : String)
    (certs : Certificates) (ctx : SecureContext)
    (hsec : env.secure = true)
    (hle : env.leCollection = ConfigVal.str collectionId)
    (hid : collectionId ≠ "")
    (hcc : (getCustomCertificates env.rawCustomCerts).1 = some certs)
    (hcf : env.compileFull certs = Except.ok ctx) :
    (env.store = none →
      init env = Except.error (JsError.typeError msgReadKeyOfNull))
    ∧ (∀ m, env.store = some m → objGet m collectionId = none →
      init env = Except.error (JsError.typeError msgReadKeyOfUndefined)) := by
  constructor
  · intro hstore
    simp [init, hsec, hle, hid, initWithCollections, hcc, hcf, getCollectionW, hstore,
      buildSecureContexts, buildSecureContextsAux]
  · intro m hstore hget
    simp [init, hsec, hle, hid, initWithCollections, hcc, hcf, getCollectionW, hstore, hget,
      buildSecureContexts, buildSecureContextsAux]

/-- C1 (witness): the amended theorem applied to the concrete environment
`env1` of the counterexample. -/
theorem c1_witness :
    init env1 = Except.error (JsError.typeError msgReadKeyOfUndefined) :=
  (c1_missing_collection_throws_typeerror env1 "specific-id"
      certsKC "CUSTOMCTX" rfl rfl (by decide) rfl rfl).2
    [("other", collOther)] rfl (by decide)

/-- C6: for every secure bootstrap with selector `true` or unset whose
store yields no collections, `init` returns an HTTPS server built from the
fallback material alone when the fallback exists (with the missing-
collections warning logged), and degrades to a plain HTTP server with an
error logged when it does not — never silently. -/
theorem c6_no_collections_degrade (env : WEnv)
    (hsec : env.secure = true)
    (hsel : env.leCollection = ConfigVal.boolean true ∨ env.leCollection = ConfigVal.undef)
    (hstore : env.store = none ∨ env.store = some []) :
    (∀ c, (getCustomCertificates env.rawCustomCerts).1 = some c →
      ∃ logs, init env = Except.ok ⟨ServerKind.httpsFallbackServer c, logs⟩ ∧
        Log.warn "Could not find any certificate collections - check ACME installation or consider installing" ∈ logs ∧
        Log.warn "Falling back to self-signed certificates or to custom certificates" ∈ logs)
    ∧ ((getCustomCertificates env.rawCustomCerts).1 = none →
      ∃ logs, init env = Except.ok ⟨ServerKind.httpServer, logs⟩ ∧
        Log.error "Could not find self-signed certificate - falling back to insecure http createServer" ∈ logs) := by
  constructor
  · intro c hc
    refine ⟨((getCustomCertificates env.rawCustomCerts).2 ++
        [Log.debug "Loading all certificate collections..."] ++
        [Log.warn "Could not find any certificate collections - check ACME installation or consider installing"]) ++
        [Log.warn "Falling back to self-signed certificates or to custom certificates"],
      ?_, by simp, by simp⟩
    rcases hsel with h | h <;> rcases hstore with hs | hs <;>
      simp [init, hsec, h, initAllPath, hs, hc, initDegrade]
  · intro hc
    refine ⟨((getCustomCertificates env.rawCustomCerts).2 ++
        [Log.debug "Loading all certificate collections..."] ++
        [Log.warn "Could not find any certificate collections - check ACME installation or consider installing"]) ++
        [Log.error "Could not find self-signed certificate - falling back to insecure http createServer"],
      ?_, by simp⟩
    rcases hsel with h | h <;> rcases hstore with hs | hs <;>
      simp [init, hsec, h, initAllPath, hs, hc, initDegrade]

/-- C6 (witness): the theorem applied to the concrete environments `env2`
(fallback exists) and `env3` (no fallback). -/
theorem c6_witness :
    (∃ logs, init env2 =
        Except.ok ⟨ServerKind.httpsFallbackServer certsKC, logs⟩ ∧
      Log.warn "Could not find any certificate collections - check ACME installation or consider installing" ∈ logs ∧
      Log.warn "Falling back to self-signed certificates or to custom certificates" ∈ logs)
    ∧ (∃ logs, init env3 = Except.ok ⟨ServerKind.httpServer, logs⟩ ∧
      Log.error "Could not find self-signed certificate - falling back to insecure http createServer" ∈ logs) :=
  ⟨(c6_no_collections_degrade env2 rfl (Or.inl rfl) (Or.inl rfl)).1 certsKC rfl,
   (c6_no_collections_degrade env3 rfl (Or.inr rfl) (Or.inr rfl)).2 rfl⟩

end Webserver
